import Mathlib

/-!
# Verification of the ZIP central-directory reader (`src/archive/zip/reader.rs`)

A shallow embedding of the EOCD Locator (`seek_end_of_central_directory_record`)
and the Central Directory Walker (`read_central_directory_file_header`) of the
`rmext` repository, together with proofs and refutations of the specification's
claims about them.

The archive file is modelled as a `List Nat` of byte values, and the
`BufReader` cursor as an explicit position.  A `read` into an `n`-byte buffer
returns the available bytes at the cursor (at most `n`; the untouched remainder
of the buffer keeps its previous content, which the Rust code initialises to
zero for every read except the signature scan, where the buffer is reused) and
advances the cursor by the number of bytes obtained.  `seek_relative` to a
negative absolute position is an I/O error; seeking past end-of-file is
allowed.  Rust panics (`unwrap` on a malformed archive, `assert_eq!`,
`panic!`) are modelled as `Except.error ()`, and both loops of the Locator,
whose termination is exactly what is in question, take an explicit fuel
parameter: a result of `none` means the loop has not finished within the given
fuel, `some none` is an I/O error and `some (some p)` is success with the
cursor left at position `p`.
-/

namespace Rmext

/-- The constant `ZipFileReader::END_OF_CENTRAL_DIR_SIGNATURE = [0x50, 0x4b, 0x05, 0x06]`. -/
def eocdSig : List Nat := [0x50, 0x4B, 0x05, 0x06]

/-- The constant `ZipFileReader::CENTRAL_DIRECTORY_ENTRY_SIGNATURE = [0x50, 0x4B, 0x01, 0x02]`. -/
def cdfhSig : List Nat := [0x50, 0x4B, 0x01, 0x02]

/-- The bytes obtained by a `read` into a fresh zero-initialised `n`-byte
buffer at position `pos`: the available bytes, padded with the buffer's
zeroes when the file ends early. -/
def readN (f : List Nat) (pos n : Nat) : List Nat :=
  (f.drop pos).take n ++ List.replicate (n - (f.drop pos).length) 0

/-- The cursor position after a `read` of at most `n` bytes at `pos`:
advanced by the number of bytes actually obtained. -/
def advance (f : List Nat) (pos n : Nat) : Nat :=
  pos + min n (f.length - pos)

/-- Little-endian value of a byte list (`u16::from_le_bytes` /
`u32::from_le_bytes`). -/
def leVal (bytes : List Nat) : Nat :=
  bytes.foldr (fun b acc => b + 256 * acc) 0

/-- A `read` into the Locator's reused 4-byte signature buffer `buf`:
the bytes obtained overwrite the front of the buffer, the rest keeps its
previous (stale) content. -/
def readBuf (f : List Nat) (pos : Nat) (buf : List Nat) : List Nat :=
  (f.drop pos).take buf.length ++ buf.drop (min buf.length (f.length - pos))

/-- The backtrack amount of the Locator's scan: the number of positions `j`
at which `buf[j]` differs from the signature byte `sig[j]` (the source
iterates `buf.iter().rev().enumerate()` and compares index `len - 1 - i`,
which is the same positional comparison). -/
def mismatchCount (buf : List Nat) : Nat :=
  ((List.range 4).filter (fun j => buf.getD j 0 ≠ eocdSig.getD j 0)).length

/-- The inner signature-scan loop of `seek_end_of_central_directory_record`
(`while buf != Self::END_OF_CENTRAL_DIR_SIGNATURE`): read 4 bytes, count the
mismatching positions, and seek backward by that count.  Fuel-indexed. -/
def locInner (f : List Nat) : Nat → Nat → List Nat → Option (Option Nat)
  | 0, pos, buf =>
    if buf = eocdSig then some (some pos) else none
  | g + 1, pos, buf =>
    if buf = eocdSig then some (some pos)
    else
      let buf' := readBuf f pos buf
      let pos' := advance f pos 4
      let off := mismatchCount buf'
      if pos' < off then some none
      else locInner f g (pos' - off) buf'

/-- The outer loop of `seek_end_of_central_directory_record`
(`while (comment_length + stream_position) != file_size`): run the signature
scan with a fresh zeroed buffer, skip 16 bytes to the comment-length field,
read it, and re-check the reconciliation condition.  On exit, seek back 22
bytes to the start of the record.  Fuel-indexed. -/
def locOuter (f : List Nat) : Nat → Nat → Nat → Option (Option Nat)
  | 0, pos, cl =>
    if cl + pos = f.length then
      if pos < 22 then some none else some (some (pos - 22))
    else none
  | g + 1, pos, cl =>
    if cl + pos = f.length then
      if pos < 22 then some none else some (some (pos - 22))
    else
      match locInner f g pos (List.replicate 4 0) with
      | none => none
      | some none => some none
      | some (some q) =>
          locOuter f g (advance f (q + 16) 2) (leVal (readN f (q + 16) 2))

/-- The method `ZipFileReader::seek_end_of_central_directory_record`: seek to
end-of-file, back up 18 then 4 more bytes (an I/O error for a file shorter
than 22 bytes), and run the scan loop. -/
def seek_end_of_central_directory_record (f : List Nat) (fuel : Nat) :
    Option (Option Nat) :=
  if f.length < 18 then some none
  else if f.length < 22 then some none
  else locOuter f fuel (f.length - 22) 0

/-- The method `ZipFileReader::is_utf8`: `(general_purpose_bit_flag[0] >> 5) & 1 == 1`,
a test on bit 5 of the first (little-endian low) flag byte. -/
def is_utf8 (flags : List Nat) : Bool :=
  (flags.getD 0 0 >>> 5) &&& 1 == 1

/-- Rust's `String::from_utf8` on the raw name bytes: strict UTF-8 decoding,
rejecting truncated sequences, overlong encodings, surrogates and
code points above `U+10FFFF`; `none` models the `Err` case. -/
def utf8Decode : List Nat → Option (List Char)
  | [] => some []
  | b :: t =>
    if b ≤ 0x7F then
      match utf8Decode t with
      | some s => some (Char.ofNat b :: s)
      | none => none
    else if 0xC2 ≤ b && b ≤ 0xDF then
      match t with
      | c1 :: t1 =>
        if 0x80 ≤ c1 && c1 ≤ 0xBF then
          match utf8Decode t1 with
          | some s => some (Char.ofNat ((b - 0xC0) * 0x40 + (c1 - 0x80)) :: s)
          | none => none
        else none
      | [] => none
    else if 0xE0 ≤ b && b ≤ 0xEF then
      match t with
      | c1 :: c2 :: t2 =>
        if (if b = 0xE0 then 0xA0 ≤ c1 && c1 ≤ 0xBF
            else if b = 0xED then 0x80 ≤ c1 && c1 ≤ 0x9F
            else 0x80 ≤ c1 && c1 ≤ 0xBF) && (0x80 ≤ c2 && c2 ≤ 0xBF) then
          match utf8Decode t2 with
          | some s =>
              some (Char.ofNat ((b - 0xE0) * 0x1000 + (c1 - 0x80) * 0x40 +
                (c2 - 0x80)) :: s)
          | none => none
        else none
      | _ => none
    else if 0xF0 ≤ b && b ≤ 0xF4 then
      match t with
      | c1 :: c2 :: c3 :: t3 =>
        if (if b = 0xF0 then 0x90 ≤ c1 && c1 ≤ 0xBF
            else if b = 0xF4 then 0x80 ≤ c1 && c1 ≤ 0x8F
            else 0x80 ≤ c1 && c1 ≤ 0xBF) && (0x80 ≤ c2 && c2 ≤ 0xBF) &&
            (0x80 ≤ c3 && c3 ≤ 0xBF) then
          match utf8Decode t3 with
          | some s =>
              some (Char.ofNat ((b - 0xF0) * 0x40000 + (c1 - 0x80) * 0x1000 +
                (c2 - 0x80) * 0x40 + (c3 - 0x80)) :: s)
          | none => none
        else none
      | _ => none
    else none

/-- Lead-byte range of a two-byte Shift-JIS sequence. -/
def sjisLead (b : Nat) : Bool :=
  (0x81 ≤ b && b ≤ 0x9F) || (0xE0 ≤ b && b ≤ 0xFC)

/-- Trail-byte range of a two-byte Shift-JIS sequence. -/
def sjisTrail (b : Nat) : Bool :=
  (0x40 ≤ b && b ≤ 0x7E) || (0x80 ≤ b && b ≤ 0xFC)

/-- Modelled from the spec: `encoding_rs::SHIFT_JIS.decode`, an external
crate not part of this repository.  Per the spec it "always decode[s] as
Shift-JIS-compatible (never fails — undecodable byte sequences are replaced
per standard replacement-character rules)", so it is total by construction.
It follows the WHATWG Shift_JIS structure: ASCII and `0x80` pass through,
`0xA1`–`0xDF` are half-width katakana, a valid lead/trail pair yields the
JIS X 0208 character at the computed pointer (represented here by a
deterministic injective placeholder, since the several-thousand-entry mapping
table lives in the external crate), and anything else becomes `U+FFFD`.
No claim depends on the identity of the mapped characters, only on totality
and on which byte shapes decode without replacement. -/
def sjisDecode : List Nat → List Char
  | [] => []
  | [b] =>
    if b ≤ 0x80 then [Char.ofNat b]
    else if 0xA1 ≤ b && b ≤ 0xDF then [Char.ofNat (0xFF61 + (b - 0xA1))]
    else [Char.ofNat 0xFFFD]
  | b :: c :: t1 =>
    if b ≤ 0x80 then Char.ofNat b :: sjisDecode (c :: t1)
    else if 0xA1 ≤ b && b ≤ 0xDF then
      Char.ofNat (0xFF61 + (b - 0xA1)) :: sjisDecode (c :: t1)
    else if sjisLead b then
      if sjisTrail c then
        Char.ofNat (0x4E00 + (if b ≤ 0x9F then b - 0x81 else b - 0xC1) * 188 +
          (if c ≤ 0x7E then c - 0x40 else c - 0x41)) :: sjisDecode t1
      else Char.ofNat 0xFFFD :: sjisDecode (c :: t1)
    else Char.ofNat 0xFFFD :: sjisDecode (c :: t1)

/-- The name-decoding step of `read_central_directory_file_header`
(lines 137–159 of `reader.rs`): if `is_utf8` holds the name is decoded
strictly as UTF-8 (panicking on invalid bytes); otherwise the configured
encoding is dispatched — `"utf8"` tries strict UTF-8 and on failure falls
back to Shift-JIS only when `cfg!(windows)` holds (modelled by the `windows`
flag), `"cp932"` always decodes as Shift-JIS, and any other value panics. -/
def decodeName (enc : String) (windows : Bool) (flags buf : List Nat) :
    Except Unit (List Char) :=
  if is_utf8 flags then
    match utf8Decode buf with
    | some s => Except.ok s
    | none => Except.error ()
  else
    match enc with
    | "utf8" =>
      match utf8Decode buf with
      | some v => Except.ok v
      | none => if windows then Except.ok (sjisDecode buf) else Except.error ()
    | "cp932" => Except.ok (sjisDecode buf)
    | _ => Except.error ()

/-- The struct `CentralDirectoryFileHeader`: one entry of the central directory,
as the Rust struct (the name already decoded, the 2-byte flag field raw). -/
structure CentralDirectoryFileHeader where
  file_name : List Char
  uncompressed_size : Nat
  general_purpose_bit_flag : List Nat
deriving DecidableEq

/-- The body of the Walker's `for` loop over the declared number of records,
iterating with the cursor position and the pending per-entry comment length
(skipped at the start of the next iteration, as in the source).  Per record:
skip the previous comment, read and assert the 4-byte CDFH signature, skip 4
version bytes, read the 2 flag bytes, skip 14 bytes, read the 4-byte
uncompressed size, the three 2-byte lengths, skip 12 bytes, `read_exact` the
name (a panic if the file cannot supply it), decode it, and skip the extra
field.  A panic anywhere discards all entries. -/
def walkLoop (enc : String) (w : Bool) (f : List Nat) :
    Nat → Nat → Nat → Except Unit (List CentralDirectoryFileHeader)
  | 0, _, _ => Except.ok []
  | k + 1, pos, cl =>
    let p := pos + cl
    if readN f p 4 = cdfhSig then
      let p2 := advance f p 4 + 4
      let flags := readN f p2 2
      let p4 := advance f p2 2 + 14
      let size := leVal (readN f p4 4)
      let p5 := advance f p4 4
      let nameLen := leVal (readN f p5 2)
      let p6 := advance f p5 2
      let extraLen := leVal (readN f p6 2)
      let p7 := advance f p6 2
      let cl' := leVal (readN f p7 2)
      let p9 := advance f p7 2 + 12
      if nameLen ≤ f.length - p9 then
        match decodeName enc w flags ((f.drop p9).take nameLen) with
        | Except.error _ => Except.error ()
        | Except.ok nm =>
          match walkLoop enc w f k (p9 + nameLen + extraLen) cl' with
          | Except.error _ => Except.error ()
          | Except.ok rest => Except.ok (⟨nm, size, flags⟩ :: rest)
      else Except.error ()
    else Except.error ()

/-- The method `ZipFileReader::read_central_directory_file_header`, started with the
cursor at position `pos` (the caller runs the Locator first): skip 10 bytes
into the EOCD record, read the 2-byte total entry count, skip 4 bytes, read
the 4-byte central-directory start offset, seek there, and run the entry
loop.  The configured encoding `enc` and the `cfg!(windows)` flag `w` feed
the name-decoding step. -/
def read_central_directory_file_header (enc : String) (w : Bool)
    (f : List Nat) (pos : Nat) : Except Unit (List CentralDirectoryFileHeader) :=
  let p1 := pos + 10
  let count := leVal (readN f p1 2)
  let p3 := advance f p1 2 + 4
  let cdOff := leVal (readN f p3 4)
  walkLoop enc w f count cdOff 0

/-- The allowed encoding values of `main.rs`
(`const ALLOWED_ENCODINGS: &[&str] = &["utf8", "cp932"]`). -/
def allowedEncodings : List String := ["utf8", "cp932"]

/-- Rust's `str::to_lowercase` as used on the encoding argument: ASCII lowercasing
(the allowed values and the values compared against are ASCII-only, on which
Rust's Unicode-aware lowercasing agrees with the ASCII one). -/
def lowercase (s : String) : String :=
  String.mk (s.data.map Char.toLower)

/-- The argument validation in `main.rs`
(`assert!(ALLOWED_ENCODINGS.contains(&args.encoding.to_lowercase().as_ref()))`),
performed before the `ZipFileReader` is constructed; the failed assert is a
panic, modelled as an error. -/
def validateArguments (encoding : String) : Except Unit Unit :=
  if allowedEncodings.contains (lowercase encoding) then Except.ok ()
  else Except.error ()

/-! ## Archive construction

The claims quantify over archives built from a known sequence of entries.
`record` lays out one Central Directory File Header for an entry exactly per
the byte contract of the spec (§6): signature at +0, general-purpose flags at
+8, uncompressed size at +24, name length at +28, extra length at +30,
comment length at +32, name payload at +46, followed by the extra field and
the per-entry comment; all multi-byte integers little-endian.  `eocdRecord`
is the 22-byte EOCD with the total entry count at +10, the
central-directory start offset 0 at +16 and a zero comment length at +20.
The fields the reader never consumes (versions, timestamps, CRC, compressed
size, disk numbers, attributes, local-header offset, EOCD disk fields and
directory size) are zero. -/

/-- The data an archive entry is built from. -/
structure EntrySpec where
  name : List Nat
  size : Nat
  flags : List Nat
  extra : List Nat
  comment : List Nat

/-- Field bounds under which the entry is representable in a real CDFH:
a 2-byte flag field, 2-byte lengths and a 4-byte size. -/
def ValidEntry (e : EntrySpec) : Prop :=
  e.flags.length = 2 ∧ e.name.length < 65536 ∧ e.extra.length < 65536 ∧
    e.comment.length < 65536 ∧ e.size < 4294967296

instance (e : EntrySpec) : Decidable (ValidEntry e) := by
  unfold ValidEntry; infer_instance

/-- The central-directory record of one entry (46 fixed bytes, then the
name, extra field and per-entry comment). -/
def record (e : EntrySpec) : List Nat :=
  0x50 :: 0x4B :: 0x01 :: 0x02 ::
  0 :: 0 :: 0 :: 0 ::
  e.flags.getD 0 0 :: e.flags.getD 1 0 ::
  0 :: 0 :: 0 :: 0 :: 0 :: 0 :: 0 :: 0 :: 0 :: 0 :: 0 :: 0 :: 0 :: 0 ::
  e.size % 256 :: e.size / 256 % 256 :: e.size / 65536 % 256 ::
    e.size / 16777216 % 256 ::
  e.name.length % 256 :: e.name.length / 256 % 256 ::
  e.extra.length % 256 :: e.extra.length / 256 % 256 ::
  e.comment.length % 256 :: e.comment.length / 256 % 256 ::
  0 :: 0 :: 0 :: 0 :: 0 :: 0 :: 0 :: 0 :: 0 :: 0 :: 0 :: 0 ::
  (e.name ++ (e.extra ++ e.comment))

/-- The 22-byte EOCD record declaring `count` entries, central directory at
offset 0, no archive comment. -/
def eocdRecord (count : Nat) : List Nat :=
  0x50 :: 0x4B :: 0x05 :: 0x06 ::
  0 :: 0 :: 0 :: 0 ::
  count % 256 :: count / 256 % 256 ::
  count % 256 :: count / 256 % 256 ::
  0 :: 0 :: 0 :: 0 ::
  0 :: 0 :: 0 :: 0 ::
  0 :: 0 :: []

/-- An archive: the central directory records back to back from offset 0,
then the EOCD record, no trailing comment. -/
def mkArchive (es : List EntrySpec) : List Nat :=
  (es.map record).flatten ++ eocdRecord es.length

/-- A 23-byte file: a well-formed EOCD record declaring a 1-byte trailing
comment, followed by that single comment byte.  The structurally correct
EOCD starts at offset 0 = `file_length - 23`. -/
def c2file : List Nat :=
  [0x50, 0x4B, 0x05, 0x06, 0, 0, 0, 0, 0, 0, 0, 0,
   0, 0, 0, 0, 0, 0, 0, 0, 1, 0, 0x41]

/-- A 26-byte file: an EOCD-shaped block at offset 0 declaring one entry and
central-directory offset 22, where the CDFH at 22 is truncated immediately
after its 4-byte signature — every fixed-field read of the Walker's single
iteration runs past end-of-file. -/
def c4file : List Nat :=
  [0x50, 0x4B, 0x05, 0x06, 0, 0, 0, 0, 1, 0, 1, 0,
   0, 0, 0, 0, 22, 0, 0, 0, 0, 0, 0x50, 0x4B, 0x01, 0x02]

/-- A 30-byte file containing no EOCD signature at all (all `0xFF`). -/
def c5file : List Nat := List.replicate 30 0xFF

/-- A 22-byte all-zero file: exactly EOCD-sized, but no signature. -/
def c10file : List Nat := List.replicate 22 0

/-- An archive with one entry whose flag bytes are `[0x20, 0x00]` (bit 5 of
the 16-bit flag value set, bit 11 clear) and whose name byte `0xFF` is not
valid UTF-8. -/
def c3file : List Nat := mkArchive [⟨[0xFF], 0, [0x20, 0], [], []⟩]

/-- An archive with one entry whose flag bytes are zero (UTF-8 bit unset)
and whose name is the ASCII byte `A`. -/
def c9file : List Nat := mkArchive [⟨[0x41], 1, [0, 0], [], []⟩]

/-- The entries the Walker is expected to return for the built archive:
each name decoded by the configured policy, with the entry's size and raw
flag bytes; an undecodable name fails the whole walk. -/
def expectedOut (enc : String) (w : Bool) :
    List EntrySpec → Except Unit (List CentralDirectoryFileHeader)
  | [] => Except.ok []
  | e :: rest =>
    match decodeName enc w e.flags e.name with
    | Except.error _ => Except.error ()
    | Except.ok nm =>
      match expectedOut enc w rest with
      | Except.error _ => Except.error ()
      | Except.ok l => Except.ok (⟨nm, e.size, e.flags⟩ :: l)

/-! ## Helper lemmas -/

/-- If the 4 bytes at position `p` all differ positionally from the EOCD
signature, the signature scan makes no net progress: it reads 4 bytes,
counts 4 mismatches and seeks back 4, returning to `p` with the same buffer
forever.  So the inner loop exhausts any amount of fuel. -/
lemma locInner_stuck (f : List Nat) (p : Nat) (h4 : 4 ≤ f.length - p)
    (hmis : mismatchCount ((f.drop p).take 4) = 4) :
    ∀ g b, b.length = 4 → b ≠ eocdSig → locInner f g p b = none := by
  intro g
  induction g with
  | zero => intro b hb hbne; simp [locInner, hbne]
  | succ g ih =>
    intro b hb hbne
    have hmin : min b.length (f.length - p) = b.length := by
      rw [hb]; exact Nat.min_eq_left h4
    have hdb : b.drop (min b.length (f.length - p)) = [] := by
      rw [hmin]; exact List.drop_length b
    have hbuf : readBuf f p b = (f.drop p).take 4 := by
      rw [readBuf, hdb, List.append_nil, hb]
    have hlen4 : ((f.drop p).take 4).length = 4 := by
      simp [List.length_take]; omega
    have hne : (f.drop p).take 4 ≠ eocdSig := by
      intro h
      rw [h] at hmis
      exact absurd hmis (by decide)
    have hadv : advance f p 4 = p + 4 := by simp [advance]; omega
    rw [locInner, if_neg hbne]
    simp only [hbuf, hadv, hmis]
    rw [if_neg (by omega : ¬ p + 4 < 4), Nat.add_sub_cancel]
    exact ih _ hlen4 hne

/-- With a stuck signature scan the outer loop cannot finish either. -/
lemma locOuter_stuck (f : List Nat) (pos cl : Nat)
    (hne : cl + pos ≠ f.length) (h4 : 4 ≤ f.length - pos)
    (hmis : mismatchCount ((f.drop pos).take 4) = 4) :
    ∀ fuel, locOuter f fuel pos cl = none := by
  intro fuel
  cases fuel with
  | zero => simp [locOuter, hne]
  | succ g =>
    have h := locInner_stuck f pos h4 hmis g [0, 0, 0, 0] (by rfl) (by decide)
    simp [locOuter, hne, h]

/-- A file of at least 22 bytes whose 4 bytes at `file_length - 22` are
positionally disjoint from the EOCD signature makes the Locator spin
forever. -/
lemma seek_stuck (f : List Nat) (h22 : 22 ≤ f.length)
    (hmis : mismatchCount ((f.drop (f.length - 22)).take 4) = 4) :
    ∀ fuel, seek_end_of_central_directory_record f fuel = none := by
  intro fuel
  rw [seek_end_of_central_directory_record,
    if_neg (by omega : ¬ f.length < 18), if_neg (by omega : ¬ f.length < 22)]
  exact locOuter_stuck f _ 0 (by omega) (by omega) hmis fuel

/-- A successful walk returns exactly as many entries as the loop count. -/
lemma walkLoop_length (enc : String) (w : Bool) (f : List Nat) :
    ∀ k pos cl l, walkLoop enc w f k pos cl = Except.ok l → l.length = k := by
  intro k
  induction k with
  | zero =>
    intro pos cl l h
    simp only [walkLoop] at h
    cases h
    rfl
  | succ k ih =>
    intro pos cl l h
    simp only [walkLoop] at h
    split at h
    · split at h
      · split at h
        · exact absurd h (by simp)
        · split at h
          · exact absurd h (by simp)
          · rename_i rest hrest
            cases h
            simpa using ih _ _ _ hrest
      · exact absurd h (by simp)
    · exact absurd h (by simp)

/-- The test `is_utf8` examines bit 5 of the first flag byte. -/
lemma is_utf8_iff (flags : List Nat) :
    is_utf8 flags = true ↔ Nat.testBit (flags.getD 0 0) 5 = true := by
  rw [is_utf8, Nat.testBit_to_div_mod, Nat.shiftRight_eq_div_pow,
    Nat.and_one_is_mod]
  simp

/-- Little-endian reconstruction of a 2-byte field. -/
lemma leVal2 (n : Nat) (h : n < 65536) :
    leVal [n % 256, n / 256 % 256] = n := by
  simp [leVal]; omega

/-- Little-endian reconstruction of a 4-byte field. -/
lemma leVal4 (n : Nat) (h : n < 4294967296) :
    leVal [n % 256, n / 256 % 256, n / 65536 % 256, n / 16777216 % 256] = n := by
  simp [leVal]; omega

/-- A list of length two is the list of its first two elements. -/
lemma list_eta2 (l : List Nat) (h : l.length = 2) :
    [l.getD 0 0, l.getD 1 0] = l := by
  match l, h with
  | [a, b], _ => rfl

/-- Length of one central-directory record. -/
lemma length_record (e : EntrySpec) :
    (record e).length =
      46 + (e.name.length + (e.extra.length + e.comment.length)) := by
  simp [record]
  omega

/-- The expected output has one element per entry. -/
lemma expectedOut_length (enc : String) (w : Bool) :
    ∀ es out, expectedOut enc w es = Except.ok out → out.length = es.length := by
  intro es
  induction es with
  | nil =>
    intro out h
    simp only [expectedOut] at h
    cases h
    rfl
  | cons e rest ih =>
    intro out h
    simp only [expectedOut] at h
    split at h
    · exact absurd h (by simp)
    · split at h
      · exact absurd h (by simp)
      · rename_i l hl
        cases h
        simpa using ih _ hl

/-- Length of the EOCD record. -/
lemma length_eocd (n : Nat) : (eocdRecord n).length = 22 := rfl

/-- With the buffer already equal to the signature, the scan stops at once. -/
lemma locInner_sig (f : List Nat) (g p : Nat) :
    locInner f g p eocdSig = some (some p) := by
  cases g <;> simp [locInner]

/-- Once the reconciliation condition holds and the cursor is at least 22,
the outer loop exits and seeks back to the record start. -/
lemma locOuter_done (f : List Nat) (pos cl g : Nat)
    (h : cl + pos = f.length) (h22 : ¬ pos < 22) :
    locOuter f g pos cl = some (some (pos - 22)) := by
  cases g <;> simp [locOuter, h, h22]

/-- The Walker's entry loop over a file whose bytes from the cursor on are
the concatenated records of `es` (followed by anything): it consumes each
record at its exact offsets and produces the expected entry for each. -/
lemma walkLoop_records (enc : String) (w : Bool) (f : List Nat) :
    ∀ (es : List EntrySpec) (pos cl : Nat) (post : List Nat),
      (∀ e ∈ es, ValidEntry e) →
      f.drop (pos + cl) = (es.map record).flatten ++ post →
      walkLoop enc w f es.length pos cl = expectedOut enc w es := by
  intro es
  induction es with
  | nil => intro pos cl post _ _; rfl
  | cons e rest ih =>
    intro pos cl post hv hdrop0
    obtain ⟨hf2, hn16, hx16, hc16, hs32⟩ := hv e (by simp)
    have hvrest : ∀ x ∈ rest, ValidEntry x := fun x hx => hv x (by simp [hx])
    rw [List.map_cons, List.flatten_cons, List.append_assoc] at hdrop0
    set p := pos + cl with hp
    set R := (rest.map record).flatten ++ post with hR
    have hrlen : (record e).length =
        46 + (e.name.length + (e.extra.length + e.comment.length)) :=
      length_record e
    have hflen : f.length = p + ((record e).length + R.length) := by
      have hdlen := congrArg List.length hdrop0
      simp only [List.length_drop, List.length_append] at hdlen
      omega
    have hdropk : ∀ c : Nat, f.drop (p + c) = (record e ++ R).drop c := by
      intro c
      rw [← List.drop_drop, hdrop0]
    have hpad : ∀ c n : Nat, c + n ≤ 46 →
        n - ((record e ++ R).drop c).length = 0 := by
      intro c n h
      simp only [List.length_drop, List.length_append]
      omega
    have hsig : readN f p 4 = cdfhSig := by
      have h0 := hdropk 0
      rw [Nat.add_zero] at h0
      rw [readN, h0, hpad 0 4 (by omega)]
      rfl
    have hadv4 : advance f p 4 = p + 4 := by rw [advance]; omega
    have e1 : p + 4 + 4 = p + 8 := by omega
    have hflags : readN f (p + 8) 2 = e.flags := by
      rw [readN, hdropk 8, hpad 8 2 (by omega)]
      exact (rfl : _ = [e.flags.getD 0 0, e.flags.getD 1 0]).trans
        (list_eta2 e.flags hf2)
    have hadv82 : advance f (p + 8) 2 = p + 10 := by rw [advance]; omega
    have e2 : p + 10 + 14 = p + 24 := by omega
    have hsize : leVal (readN f (p + 24) 4) = e.size := by
      rw [readN, hdropk 24, hpad 24 4 (by omega)]
      exact (congrArg leVal (rfl :
        _ = [e.size % 256, e.size / 256 % 256, e.size / 65536 % 256,
          e.size / 16777216 % 256])).trans (leVal4 e.size hs32)
    have hadv244 : advance f (p + 24) 4 = p + 28 := by rw [advance]; omega
    have hnl : leVal (readN f (p + 28) 2) = e.name.length := by
      rw [readN, hdropk 28, hpad 28 2 (by omega)]
      exact (congrArg leVal (rfl :
        _ = [e.name.length % 256, e.name.length / 256 % 256])).trans
        (leVal2 e.name.length hn16)
    have hadv282 : advance f (p + 28) 2 = p + 30 := by rw [advance]; omega
    have hxl : leVal (readN f (p + 30) 2) = e.extra.length := by
      rw [readN, hdropk 30, hpad 30 2 (by omega)]
      exact (congrArg leVal (rfl :
        _ = [e.extra.length % 256, e.extra.length / 256 % 256])).trans
        (leVal2 e.extra.length hx16)
    have hadv302 : advance f (p + 30) 2 = p + 32 := by rw [advance]; omega
    have hcl : leVal (readN f (p + 32) 2) = e.comment.length := by
      rw [readN, hdropk 32, hpad 32 2 (by omega)]
      exact (congrArg leVal (rfl :
        _ = [e.comment.length % 256, e.comment.length / 256 % 256])).trans
        (leVal2 e.comment.length hc16)
    have hadv322 : advance f (p + 32) 2 = p + 34 := by rw [advance]; omega
    have e3 : p + 34 + 12 = p + 46 := by omega
    have hcond : e.name.length ≤ f.length - (p + 46) := by omega
    have hname : (f.drop (p + 46)).take e.name.length = e.name := by
      have h46 : (record e ++ R).drop 46 =
          (e.name ++ (e.extra ++ e.comment)) ++ R := rfl
      rw [hdropk 46, h46, List.append_assoc]
      exact List.take_left _ _
    have hrec : walkLoop enc w f rest.length
        (p + 46 + e.name.length + e.extra.length) e.comment.length =
        expectedOut enc w rest := by
      apply ih _ _ post hvrest
      rw [show p + 46 + e.name.length + e.extra.length + e.comment.length =
        p + (record e).length from by omega]
      rw [hdropk ((record e).length), hR]
      exact List.drop_left _ _
    simp only [List.length_cons, walkLoop]
    rw [← hp, if_pos hsig, hadv4, e1, hflags, hadv82, e2, hsize, hadv244,
      hnl, hadv282, hxl, hadv302, hcl, hadv322, e3, if_pos hcond, hname, hrec]
    cases hdec : decodeName enc w e.flags e.name <;>
      cases hre : expectedOut enc w rest <;>
        simp [expectedOut, hdec, hre]

/-- The Locator on a built archive: the EOCD starts at `file_length - 22`,
its signature is found by the very first 4-byte probe, the zero comment
length reconciles at once, and the cursor is seeked back to the record
start.  Any fuel beyond the two consumed loop iterations suffices. -/
lemma locate_mkArchive (es : List EntrySpec) :
    ∀ g, seek_end_of_central_directory_record (mkArchive es) (g + 2) =
      some (some ((mkArchive es).length - 22)) := by
  intro g
  set f := mkArchive es with hf
  set cdL := ((es.map record).flatten).length with hcd
  have hsplit : f.drop cdL = eocdRecord es.length := by
    rw [hf, mkArchive, hcd]
    exact List.drop_left _ _
  have hflen : f.length = cdL + 22 := by
    rw [hf, mkArchive]
    simp [List.length_append, hcd, length_eocd]
  have hpos : f.length - 22 = cdL := by omega
  rw [seek_end_of_central_directory_record, if_neg (by omega), if_neg (by omega),
    hpos]
  have hdK : ∀ c : Nat, f.drop (cdL + c) = (eocdRecord es.length).drop c := by
    intro c
    rw [← List.drop_drop, hsplit]
  have hinner : locInner f (g + 1) cdL (List.replicate 4 0) =
      some (some (cdL + 4)) := by
    have hbuf : readBuf f cdL (List.replicate 4 0) = eocdSig := by
      rw [readBuf, hsplit,
        show min (List.replicate 4 (0 : Nat)).length (f.length - cdL) = 4 from
          by simp; omega]
      rfl
    have hadv : advance f cdL 4 = cdL + 4 := by rw [advance]; omega
    rw [locInner, if_neg (by decide)]
    simp only [hbuf, hadv]
    rw [if_neg (show ¬ cdL + 4 < mismatchCount eocdSig from by
      rw [show mismatchCount eocdSig = 0 from rfl]; omega)]
    rw [show cdL + 4 - mismatchCount eocdSig = cdL + 4 from by
      rw [show mismatchCount eocdSig = 0 from rfl, Nat.sub_zero]]
    exact locInner_sig f g (cdL + 4)
  rw [locOuter, if_neg (show ¬ 0 + cdL = f.length from by omega), hinner]
  have hcl2 : readN f (cdL + 4 + 16) 2 = [0, 0] := by
    rw [show cdL + 4 + 16 = cdL + 20 from by omega, readN, hdK 20]
    rfl
  have hadv2 : advance f (cdL + 4 + 16) 2 = f.length := by
    rw [advance]; omega
  show locOuter f (g + 1) (advance f (cdL + 4 + 16) 2)
      (leVal (readN f (cdL + 4 + 16) 2)) = some (some cdL)
  rw [hcl2, hadv2,
    locOuter_done f f.length (leVal [0, 0]) (g + 1)
      (by rw [show leVal [0, 0] = 0 from rfl, Nat.zero_add]) (by omega),
    hpos]

/-- The Walker on a built archive started at the EOCD record: it reads the
declared count and the directory offset from the EOCD and walks the records
from offset 0, producing the expected entry list. -/
lemma read_cdfh_mkArchive (enc : String) (w : Bool) (es : List EntrySpec)
    (hv : ∀ e ∈ es, ValidEntry e) (hcount : es.length < 65536) :
    read_central_directory_file_header enc w (mkArchive es)
      ((mkArchive es).length - 22) = expectedOut enc w es := by
  set f := mkArchive es with hf
  set cdL := ((es.map record).flatten).length with hcd
  have hsplit : f.drop cdL = eocdRecord es.length := by
    rw [hf, mkArchive, hcd]
    exact List.drop_left _ _
  have hflen : f.length = cdL + 22 := by
    rw [hf, mkArchive]
    simp [List.length_append, hcd, length_eocd]
  have hpos : f.length - 22 = cdL := by omega
  have hdK : ∀ c : Nat, f.drop (cdL + c) = (eocdRecord es.length).drop c := by
    intro c
    rw [← List.drop_drop, hsplit]
  have hcount2 : readN f (cdL + 10) 2 =
      [es.length % 256, es.length / 256 % 256] := by
    rw [readN, hdK 10]
    rfl
  have hadv10 : advance f (cdL + 10) 2 = cdL + 12 := by rw [advance]; omega
  have hoff : readN f (cdL + 12 + 4) 4 = [0, 0, 0, 0] := by
    rw [show cdL + 12 + 4 = cdL + 16 from by omega, readN, hdK 16]
    rfl
  rw [read_central_directory_file_header, hpos, hcount2, hadv10, hoff]
  rw [show leVal [es.length % 256, es.length / 256 % 256] = es.length from
    leVal2 es.length hcount]
  rw [show leVal [0, 0, 0, 0] = 0 from rfl]
  apply walkLoop_records enc w f es 0 0 (eocdRecord es.length) hv
  rw [Nat.add_zero, List.drop_zero, hf, mkArchive]

/-! ## Claim theorems -/

/-- C2: refuted as stated — on `c2file`, a well-formed archive whose EOCD
carries a 1-byte trailing comment, the Locator does not find the
structurally correct EOCD record at offset 0: its scan starts 22 bytes from
end-of-file (one byte past the signature), each probe reads 4 bytes and
seeks back only by the number of mismatching bytes, so it can never move
backward past its starting point, and on this file it re-reads the same 4
bytes forever: the loop finishes for no amount of fuel. -/
theorem c2_comment_scan_diverges :
    ∀ fuel, seek_end_of_central_directory_record c2file fuel = none :=
  seek_stuck c2file (by decide) (by decide)

/-- C4: refuted as stated — on `c4file`, where the single CDFH is truncated
right after its 4-byte signature, every fixed-field read of the Walker runs
past end-of-file, returns no bytes, and leaves the zero-initialised buffer
untouched; instead of failing, the Walker silently fabricates one entry with
empty name, size 0 and zero flag bytes. -/
theorem c4_truncated_read_zero_filled :
    read_central_directory_file_header "utf8" false c4file 0 =
      Except.ok [⟨[], 0, [0, 0]⟩] := by
  rfl

/-- C5: for a file shorter than 22 bytes the Locator does fail immediately
(the initial backward seeks are an I/O error), but for a file with no EOCD
signature at all (`c5file`, 30 bytes of `0xFF`) it does not fail with an
error: its scan cannot move backward toward the start of the file and spins
forever on the same 4 bytes, finishing for no amount of fuel. -/
theorem c5_locator_failure :
    (∀ f : List Nat, f.length < 22 →
      ∀ fuel, seek_end_of_central_directory_record f fuel = some none) ∧
    (∀ fuel, seek_end_of_central_directory_record c5file fuel = none) := by
  constructor
  · intro f h fuel
    rw [seek_end_of_central_directory_record]
    by_cases h18 : f.length < 18
    · rw [if_pos h18]
    · rw [if_neg h18, if_pos h]
  · exact seek_stuck c5file (by decide) (by decide)

/-- C5 witness: the empty file is shorter than 22 bytes and the Locator
fails immediately on it. -/
theorem c5_locator_failure_witness :
    seek_end_of_central_directory_record [] 0 = some none :=
  c5_locator_failure.1 [] (by decide) 0

/-- C10: refuted — the Locator does not terminate on every finite input.
On `c10file` (22 zero bytes) the first probe reads 4 bytes that all differ
from the signature, counts 4 mismatches and seeks back 4, returning to the
same position with the same buffer: the scan loop revisits position 0
indefinitely and finishes for no amount of fuel. -/
theorem c10_locator_diverges :
    ∀ fuel, seek_end_of_central_directory_record c10file fuel = none :=
  seek_stuck c10file (by decide) (by decide)

/-- C3 counterexample: an entry whose 16-bit flag value `0x0020` has bit 11
clear is still decoded strictly as UTF-8 (the code tests bit 5 of the low
byte), so under policy `cp932` — which per the claim would decode any name
without error — the Walker fails on the invalid-UTF-8 name byte `0xFF`. -/
theorem c3_counterexample :
    Nat.testBit 0x0020 11 = false ∧
    read_central_directory_file_header "cp932" false c3file
      (c3file.length - 22) = Except.error () := by
  exact ⟨by decide, by rfl⟩

/-- C3 amended: the Walker decodes an entry's name strictly as UTF-8,
regardless of the configured encoding policy and platform, exactly when
bit 5 of the first (little-endian low) flag byte is set — not bit 11 of the
16-bit flag value; with that bit set, valid UTF-8 name bytes decode to
exactly that string, and invalid ones fail. -/
theorem c3_flag_bit_decoding (enc : String) (w : Bool) (flags buf : List Nat)
    (hbit : Nat.testBit (flags.getD 0 0) 5 = true) :
    (∀ s, utf8Decode buf = some s → decodeName enc w flags buf = Except.ok s) ∧
    (utf8Decode buf = none → decodeName enc w flags buf = Except.error ()) := by
  have h : is_utf8 flags = true := (is_utf8_iff flags).mpr hbit
  constructor
  · intro s hs
    simp [decodeName, h, hs]
  · intro hn
    simp [decodeName, h, hn]

/-- C3 witness: flag bytes `[0x20, 0x00]` have bit 5 of the low byte set,
and the ASCII name byte `A` decodes to `"A"` even under policy `cp932`. -/
theorem c3_flag_bit_decoding_witness :
    decodeName "cp932" true [0x20, 0] [0x41] = Except.ok [Char.ofNat 0x41] :=
  (c3_flag_bit_decoding "cp932" true [0x20, 0] [0x41] (by decide)).1
    [Char.ofNat 0x41] (by decide)

/-- C8: for an entry whose UTF-8 flag bit (as the code reads it) is unset,
policy `cp932` always decodes the name via Shift-JIS without error; policy
`utf8` on name bytes that are invalid UTF-8 fails on a non-Windows platform
and falls back to the Shift-JIS decode exactly on Windows. -/
theorem c8_encoding_policy (w : Bool) (flags buf : List Nat)
    (hflag : is_utf8 flags = false) :
    decodeName "cp932" w flags buf = Except.ok (sjisDecode buf) ∧
    (utf8Decode buf = none →
      decodeName "utf8" false flags buf = Except.error () ∧
      decodeName "utf8" true flags buf = Except.ok (sjisDecode buf)) := by
  constructor
  · simp [decodeName, hflag]
  · intro hn
    constructor <;> simp [decodeName, hflag, hn]

/-- C8 witness: with zero flags and the Shift-JIS bytes `82 A0` (invalid
UTF-8), `cp932` decodes without error, `utf8` fails off Windows and decodes
via Shift-JIS on Windows. -/
theorem c8_encoding_policy_witness :
    decodeName "cp932" false [0, 0] [0x82, 0xA0] =
      Except.ok (sjisDecode [0x82, 0xA0]) ∧
    decodeName "utf8" false [0, 0] [0x82, 0xA0] = Except.error () ∧
    decodeName "utf8" true [0, 0] [0x82, 0xA0] =
      Except.ok (sjisDecode [0x82, 0xA0]) := by
  have h := c8_encoding_policy false [0, 0] [0x82, 0xA0] (by decide)
  exact ⟨h.1, (h.2 (by decide)).1, (h.2 (by decide)).2⟩

/-- C9 counterexample: the encoding value `"UTF8"` differs from both
`"utf8"` and `"cp932"`, yet it passes the setup-time argument validation
(which lowercases before checking) and the reader construction (which
validates nothing); the parse then starts and fails per entry inside the
walk, at the first entry whose flag bit is unset — contradicting the claim
that an unsupported value fails at setup and no parse is ever started. -/
theorem c9_counterexample :
    validateArguments "UTF8" = Except.ok () ∧
    ("UTF8" : String) ≠ "utf8" ∧ ("UTF8" : String) ≠ "cp932" ∧
    read_central_directory_file_header "UTF8" false c9file
      (c9file.length - 22) = Except.error () := by
  exact ⟨by rfl, by decide, by decide, by rfl⟩

/-- C9 amended: an encoding value whose lowercase form is neither `utf8`
nor `cp932` is rejected by the argument validation in `main` before the
reader is constructed; the per-value dispatch in the Walker, however, is
exact-match, so any value other than the two literals — including values
that pass setup validation, such as `"UTF8"` — fails per entry during the
walk whenever a name is decoded with the flag bit unset. -/
theorem c9_validation_timing (enc : String) (w : Bool) (flags buf : List Nat) :
    (allowedEncodings.contains (lowercase enc) = false →
      validateArguments enc = Except.error ()) ∧
    (enc ≠ "utf8" → enc ≠ "cp932" → is_utf8 flags = false →
      decodeName enc w flags buf = Except.error ()) := by
  constructor
  · intro h
    rw [validateArguments, h]
    rfl
  · intro h1 h2 h3
    simp [decodeName, h3, h1, h2]

/-- C9 witness: the value `"sjis"` fails setup validation, and would also
fail per entry in the walk. -/
theorem c9_validation_timing_witness :
    validateArguments "sjis" = Except.error () ∧
    decodeName "sjis" false [0, 0] [] = Except.error () := by
  have h := c9_validation_timing "sjis" false [0, 0] []
  exact ⟨h.1 (by decide), h.2 (by decide) (by decide) (by decide)⟩

/-- C6: on any iteration of the entry loop, if the 4 bytes at the current
record start (after the pending comment skip) are not the CDFH signature,
the whole walk fails with an error and yields no entries; and any
successful walk returns the full declared count — the caller never receives
a truncated partial list. -/
theorem c6_signature_check_atomicity (enc : String) (w : Bool)
    (f : List Nat) (k pos cl : Nat) :
    (0 < k → readN f (pos + cl) 4 ≠ cdfhSig →
      walkLoop enc w f k pos cl = Except.error ()) ∧
    (∀ l, walkLoop enc w f k pos cl = Except.ok l → l.length = k) := by
  constructor
  · intro hk hsig
    obtain ⟨j, rfl⟩ : ∃ j, k = j + 1 := ⟨k - 1, by omega⟩
    rw [walkLoop, if_neg hsig]
  · intro l h
    exact walkLoop_length enc w f k pos cl l h

/-- C6 witness: a walk of one declared entry over the empty file reads a
zero-filled non-signature and fails. -/
theorem c6_signature_check_atomicity_witness :
    walkLoop "utf8" false [] 1 0 0 = Except.error () :=
  (c6_signature_check_atomicity "utf8" false [] 1 0 0).1 (by decide) (by decide)

/-- C1: round-trip — for every archive built from entries (name bytes,
sizes, flag bytes; no extra fields or per-entry comments) with a zero-length
EOCD comment, the Locator positions the cursor at the EOCD record starting
at `file_length - 22` (with any sufficient fuel), and the Walker then
returns exactly the constructed entries in storage order, their names
decoded by the configured policy. -/
theorem c1_round_trip (es : List EntrySpec) (enc : String) (w : Bool)
    (out : List CentralDirectoryFileHeader) (g : Nat)
    (hv : ∀ e ∈ es, ValidEntry e ∧ e.extra = [] ∧ e.comment = [])
    (hcount : es.length < 65536)
    (hout : expectedOut enc w es = Except.ok out) :
    seek_end_of_central_directory_record (mkArchive es) (g + 2) =
      some (some ((mkArchive es).length - 22)) ∧
    read_central_directory_file_header enc w (mkArchive es)
      ((mkArchive es).length - 22) = Except.ok out :=
  ⟨locate_mkArchive es g,
    by rw [read_cdfh_mkArchive enc w es (fun e he => (hv e he).1) hcount, hout]⟩

/-- C1 witness: a one-entry archive (name `A`, size 5, zero flags) under
policy `utf8`. -/
theorem c1_round_trip_witness :
    seek_end_of_central_directory_record
      (mkArchive [⟨[0x41], 5, [0, 0], [], []⟩]) 2 =
      some (some ((mkArchive [⟨[0x41], 5, [0, 0], [], []⟩]).length - 22)) ∧
    read_central_directory_file_header "utf8" false
      (mkArchive [⟨[0x41], 5, [0, 0], [], []⟩])
      ((mkArchive [⟨[0x41], 5, [0, 0], [], []⟩]).length - 22) =
      Except.ok [⟨[Char.ofNat 0x41], 5, [0, 0]⟩] :=
  c1_round_trip [⟨[0x41], 5, [0, 0], [], []⟩] "utf8" false
    [⟨[Char.ofNat 0x41], 5, [0, 0]⟩] 0 (by decide) (by decide) (by rfl)

/-- C7: count fidelity — for every well-formed built archive, including
entries with non-zero extra fields and per-entry comments, the Walker
returns exactly the declared number of entries, one per constructed entry,
each variable-length trailer being skipped so that the cursor sits at the
next CDFH signature before each signature check. -/
theorem c7_count_fidelity (es : List EntrySpec) (enc : String) (w : Bool)
    (out : List CentralDirectoryFileHeader)
    (hv : ∀ e ∈ es, ValidEntry e) (hcount : es.length < 65536)
    (hout : expectedOut enc w es = Except.ok out) :
    read_central_directory_file_header enc w (mkArchive es)
      ((mkArchive es).length - 22) = Except.ok out ∧
    out.length = es.length :=
  ⟨by rw [read_cdfh_mkArchive enc w es hv hcount, hout],
    expectedOut_length enc w es out hout⟩

/-- C7 witness: a two-entry archive whose first entry carries a 2-byte
extra field and a 1-byte comment and whose second entry carries a 2-byte
comment, under policy `cp932`. -/
theorem c7_count_fidelity_witness :
    read_central_directory_file_header "cp932" false
      (mkArchive [⟨[0x42], 3, [0x20, 0], [9, 9], [7]⟩,
        ⟨[0x43], 7, [0, 0], [], [1, 2]⟩])
      ((mkArchive [⟨[0x42], 3, [0x20, 0], [9, 9], [7]⟩,
        ⟨[0x43], 7, [0, 0], [], [1, 2]⟩]).length - 22) =
      Except.ok [⟨[Char.ofNat 0x42], 3, [0x20, 0]⟩,
        ⟨[Char.ofNat 0x43], 7, [0, 0]⟩] ∧
    ([⟨[Char.ofNat 0x42], 3, [0x20, 0]⟩, ⟨[Char.ofNat 0x43], 7, [0, 0]⟩] :
      List CentralDirectoryFileHeader).length = 2 :=
  c7_count_fidelity [⟨[0x42], 3, [0x20, 0], [9, 9], [7]⟩,
      ⟨[0x43], 7, [0, 0], [], [1, 2]⟩] "cp932" false
    [⟨[Char.ofNat 0x42], 3, [0x20, 0]⟩, ⟨[Char.ofNat 0x43], 7, [0, 0]⟩]
    (by decide) (by decide) (by rfl)

end Rmext
